import Mathlib

/-!
# Verification of the dropseed real-time processing core

Shallow embedding of the shared-buffer model, the fan-in sum tasks and the
plugin host processor of the dropseed audio engine, together with theorems
checking the natural-language specification against the code.

Audio samples (`f32` in the source) are modelled as rationals: the claims
under study are about control flow, buffer structure and the constant-hint
flag, not about rounding. `f32::EPSILON = 2^-23` is modelled exactly.

Rust `Vec<T>` contents are modelled as `List T`; an index that would be out
of bounds in the source (a panic) is modelled by `Option`-valued operations
where a claim depends on it.
-/

namespace Dropseed

/-- `f32::EPSILON` as an exact rational (2⁻²³). -/
def f32Epsilon : ℚ := 1 / 2 ^ 23

/-! ## SharedBuffer (plugin-api/src/buffer.rs) -/

/-- `SharedBuffer<T>` from `plugin-api/src/buffer.rs`: the underlying
`Vec<T>` plus the atomic `is_constant` flag.  The reference-counting shell
(`Shared`, `AtomicRefCell`) is identity on the data and is dropped. -/
structure SharedBuffer (T : Type) where
  data : List T
  is_constant : Bool
deriving Repr, DecidableEq

namespace SharedBuffer

variable {T : Type}

/-- `SharedBuffer::set_constant`. -/
def set_constant (b : SharedBuffer T) (c : Bool) : SharedBuffer T :=
  { b with is_constant := c }

/-- `SharedBuffer::truncate`: `self.borrow_mut().truncate(0)`. -/
def truncate (b : SharedBuffer T) : SharedBuffer T :=
  { b with data := [] }

/-- `SharedBuffer::clear(frames)`:
`let frames = frames.min(buf_ref.len()); buf_ref[0..frames].fill(T::default());
self.set_constant(true);` -/
def clear [Inhabited T] (b : SharedBuffer T) (frames : ℕ) : SharedBuffer T :=
  let n := min frames b.data.length
  { data := List.replicate n (default : T) ++ b.data.drop n
    is_constant := true }

/-- `SharedBuffer::has_silent_hint`:
`self.is_constant() && self.borrow()[0] == T::default()`.
Rust `&&` short-circuits, so element 0 is read only when the constant flag
is set; reading it on an empty vector panics, modelled as `none`. -/
def has_silent_hint [Inhabited T] [DecidableEq T] (b : SharedBuffer T) :
    Option Bool :=
  if b.is_constant then
    match b.data.head? with
    | some x => some (decide (x = (default : T)))
    | none => none
  else
    some false

end SharedBuffer

/-! ## Audio sum task (src/processor_schedule/tasks/sum_task/audio_sum_task.rs) -/

/-- `AudioSumTask`: the input channel buffers and the output buffer. -/
structure AudioSumTask where
  audio_in : List (SharedBuffer ℚ)
  audio_out : SharedBuffer ℚ
deriving Repr, DecidableEq

/-- One iteration of the `for ch in self.audio_in.iter().skip(1)` loop in
`AudioSumTask::process`.  The accumulator holds the first `frames` output
samples and the `is_constant` local.  `input[0]` is `ch.data.headD 0`
(in bounds whenever `frames ≥ 1` and the buffer holds `frames` samples, the
regime of every theorem below). -/
def audioSumStep (acc : List ℚ × Bool) (ch : SharedBuffer ℚ) : List ℚ × Bool :=
  let s0 := ch.data.headD 0
  if ch.is_constant then
    if |s0| ≤ f32Epsilon then
      -- "We can skip this one since it is silent."
      acc
    else
      (acc.1.map (· + s0), acc.2)
  else
    (List.zipWith (· + ·) acc.1 (ch.data.take acc.1.length), false)

/-- `AudioSumTask::process(proc_info)`: copy the first input into
`out[0..frames]`, fold the remaining inputs with `audioSumStep`, write the
result back over the first `frames` output samples and store the final
`is_constant` local into the output's flag.  Samples past `frames` are left
untouched, as in the source. -/
def AudioSumTask.process (t : AudioSumTask) (frames : ℕ) : AudioSumTask :=
  match t.audio_in with
  | [] => t
  | in0 :: rest =>
    let init : List ℚ × Bool := (in0.data.take frames, in0.is_constant)
    let res := rest.foldl audioSumStep init
    { t with
      audio_out :=
        { data := res.1 ++ t.audio_out.data.drop frames
          is_constant := res.2 } }

/-! ## Automation / note sum tasks
(src/processor_schedule/tasks/sum_task/automation_sum_task.rs,
 src/processor_schedule/tasks/sum_task/note_sum_task.rs) -/

/-- `AutomationSumTask` over an abstract event type `E`
(`AutomationIoEvent` in the source). -/
structure AutomationSumTask (E : Type) where
  input : List (SharedBuffer E)
  output : SharedBuffer E

/-- `AutomationSumTask::process`: `out_buf.clear();` then
`out_buf.extend_from_slice(in_buf.as_slice())` for every input in order.
The constant flag is not touched. -/
def AutomationSumTask.process {E : Type} (t : AutomationSumTask E) :
    AutomationSumTask E :=
  { t with
    output :=
      { t.output with
        data := t.input.foldl (fun out_buf in_buf => out_buf ++ in_buf.data) [] } }

/-- `NoteSumTask` over an abstract event type `E` (`NoteIoEvent` in the
source). -/
structure NoteSumTask (E : Type) where
  note_in : List (SharedBuffer E)
  note_out : SharedBuffer E

/-- `NoteSumTask::process`: identical to the automation sum: clear the
output `Vec`, then append every input slice in order. -/
def NoteSumTask.process {E : Type} (t : NoteSumTask E) : NoteSumTask E :=
  { t with
    note_out :=
      { t.note_out with
        data := t.note_in.foldl (fun out_buf in_buf => out_buf ++ in_buf.data) [] } }

/-! ## Audio port helpers (plugin-api/src/buffer.rs) -/

/-- `AudioPortBuffer::is_silent(frames)`: for each channel buffer, scan
`&buf[0..frames.min(buf.len())]` and return false on the first sample that
is not exactly zero. -/
def portIsSilent (port : List (SharedBuffer ℚ)) (frames : ℕ) : Bool :=
  port.all fun buf => (buf.data.take frames).all fun x => decide (x = 0)

/-- `AudioPortBuffer::has_silent_hint`:
`channels.iter().all(|c| c.has_silent_hint())`, short-circuiting at the
first `false`; a panicking channel call (`none`) propagates. -/
def portHasSilentHint : List (SharedBuffer ℚ) → Option Bool
  | [] => some true
  | c :: rest =>
    match c.has_silent_hint with
    | none => none
    | some false => some false
    | some true => portHasSilentHint rest

/-- `AudioPortBufferMut::clear_all(frames)`: `SharedBuffer::clear(frames)`
on every channel buffer of the port. -/
def portClearAll (port : List (SharedBuffer ℚ)) (frames : ℕ) :
    List (SharedBuffer ℚ) :=
  port.map (SharedBuffer.clear · frames)

/-! ## Process-cycle types

`ProcInfo`, `ProcBuffers` and `ProcessStatus` live in
`dropseed-plugin-api`'s `process_info.rs`, which is not part of the corpus;
they are modelled from the spec, with the port-level operations taken from
`plugin-api/src/buffer.rs` above. -/

/-- Modelled from the spec: `ProcessStatus` (`process_info.rs` is missing) —
the plugin's self-reported continuation mode: "keep running", "keep running
only while not fed silence", "going to sleep", "failed". -/
inductive ProcessStatus where
  | Continue
  | ContinueIfNotQuiet
  | Sleep
  | Error
deriving Repr, DecidableEq

/-- `ProcessingState` from `src/plugin_host/process_thread.rs`. -/
inductive ProcessingState where
  | WaitingForStart
  | Started (status : ProcessStatus)
  | Stopped
  | Errored
deriving Repr, DecidableEq

/-- `if let ProcessingState::Started(_) = ...` as a predicate. -/
def ProcessingState.isStarted : ProcessingState → Bool
  | .Started _ => true
  | _ => false

/-- `PluginActiveState` from the cross-thread channel
(`src/plugin_host/channel.rs`, missing from the corpus; the four variants
are named in the spec's data model). -/
inductive PluginActiveState where
  | Inactive
  | Active
  | WaitingToDrop
  | DroppedAndReadyToDeactivate
deriving Repr, DecidableEq

/-- Modelled from the spec: the cross-thread shared state cell
(`channel.rs` is missing) — "active-state enum + bypass flag +
process-requested flag", read by the audio context once per cycle.  A cycle
sees one snapshot of it. -/
structure SharedState where
  active_state : PluginActiveState
  bypassed : Bool
  process_requested : Bool
deriving Repr, DecidableEq

/-- `ProcInfo`: the cycle's frame count and schedule version (the transport
field only contributes an input event and is tracked through the event
booleans below). -/
structure ProcInfo where
  frames : ℕ
  schedule_version : ℕ
deriving Repr, DecidableEq

/-- Modelled from the spec: `ProcBuffers` (`process_info.rs` is missing) —
the cycle's input and output audio ports (each a list of channel buffers),
plus whether a designated main port pair passes audio through while
bypassed (`_main_audio_through_when_bypassed` in the source). -/
structure ProcBuffers where
  audio_in : List (List (SharedBuffer ℚ))
  audio_out : List (List (SharedBuffer ℚ))
  main_audio_through_when_bypassed : Bool
deriving Repr, DecidableEq

/-- Modelled from the spec: `ProcBuffers::clear_all_outputs` — "clear all
output ports": `AudioPortBufferMut::clear_all` over the cycle's frames on
every output port. -/
def ProcBuffers.clear_all_outputs (b : ProcBuffers) (frames : ℕ) :
    ProcBuffers :=
  { b with audio_out := b.audio_out.map (portClearAll · frames) }

/-- Modelled from the spec: `ProcBuffers::audio_inputs_silent` — "every
audio input is exactly silent for this cycle's frame count (exact check,
not hint)": `AudioPortBuffer::is_silent` on every input port. -/
def ProcBuffers.audio_inputs_silent (b : ProcBuffers) (frames : ℕ) : Bool :=
  b.audio_in.all (portIsSilent · frames)

/-- Every output channel is all-zero over the first `frames` samples
(the property "outputs are all-zero for this cycle"). -/
def ProcBuffers.outputsZero (b : ProcBuffers) (frames : ℕ) : Bool :=
  b.audio_out.all fun port =>
    port.all fun ch => (ch.data.take frames).all fun x => decide (x = 0)

/-! ## Plugin host processor (src/plugin_host/process_thread.rs) -/

/-- The calls `process` makes into the plugin capability, in order.  The
plugin itself is an external collaborator (spec §6); its per-cycle
transform is passed in as a function. -/
inductive PluginCall where
  | start_processing
  | stop_processing
  | process
  | param_flush
deriving Repr, DecidableEq

/-- The fields of `PluginHostProcessor` the processing algorithm reads and
writes.  The plugin box, channel, scratch event buffers, sanitizer and
thread ids are externals threaded through the call arguments instead. -/
structure PluginHostProcessor where
  processing_state : ProcessingState
  schedule_version : ℕ
  bypassed : Bool
  bypass_declick : ℚ
  bypass_declick_inc : ℚ
  bypass_declick_frames : ℕ
  bypass_declick_frames_left : ℕ
deriving Repr, DecidableEq

/-- What one `PluginHostProcessor::process` call produced: the updated
processor fields, the buffers, the returned bool ("dropped"), the plugin
calls made, and any write to the cross-thread active state. -/
structure ProcessResult where
  proc : PluginHostProcessor
  buffers : ProcBuffers
  dropped : Bool
  calls : List PluginCall
  set_active : Option PluginActiveState
deriving Repr, DecidableEq

namespace PluginHostProcessor

/-- Lines 244-258 of `process`: react to a change of the cross-thread
bypass flag.  No ramp in progress: start a fresh ramp (`frames_left := N`,
weight `1.0` when entering bypass, `0.0` when leaving).  Ramp in progress:
`frames_left := N - frames_left`; the weight field is left untouched. -/
def bypassToggleUpdate (p : PluginHostProcessor) (shared_bypassed : Bool) :
    PluginHostProcessor :=
  if p.bypassed ≠ shared_bypassed then
    let p := { p with bypassed := shared_bypassed }
    if p.bypass_declick_frames_left = 0 then
      { p with
        bypass_declick_frames_left := p.bypass_declick_frames
        bypass_declick := if p.bypassed then 1 else 0 }
    else
      { p with
        bypass_declick_frames_left :=
          p.bypass_declick_frames - p.bypass_declick_frames_left }
  else p

/-- The local `declick` value used at loop index `i` (the source steps the
local by `inc` before using it, so index `i` sees `i + 1` steps):
decrementing when entering bypass, incrementing when leaving. -/
def declickCoef (d0 inc : ℚ) (entering : Bool) (i : ℕ) : ℚ :=
  if entering then d0 - inc * (i + 1) else d0 + inc * (i + 1)

/-- One main-port channel of `bypass_declick`: mix
`out[i]*declick + in[i]*(1-declick)` over the first `dFrames` samples;
when entering bypass, copy the input over `dFrames..frames`. -/
def declickMixChannel (d0 inc : ℚ) (entering : Bool) (dFrames frames : ℕ)
    (inData outData : List ℚ) : List ℚ :=
  outData.mapIdx fun i x =>
    if i < dFrames then
      x * declickCoef d0 inc entering i +
        inData.getD i 0 * (1 - declickCoef d0 inc entering i)
    else if entering ∧ i < frames then inData.getD i 0
    else x

/-- One silenced channel of `bypass_declick`: `out[i]*declick` over the
first `dFrames` samples; when entering bypass, zero-fill
`dFrames..frames`. -/
def declickSilenceChannel (d0 inc : ℚ) (entering : Bool)
    (dFrames frames : ℕ) (outData : List ℚ) : List ℚ :=
  outData.mapIdx fun i x =>
    if i < dFrames then x * declickCoef d0 inc entering i
    else if entering ∧ i < frames then 0
    else x

/-- Mixed channel buffer: new samples, constant flag force-cleared
(`out_channel.set_constant(false)`). -/
def declickMixBuffer (d0 inc : ℚ) (entering : Bool) (dFrames frames : ℕ)
    (inBuf outBuf : SharedBuffer ℚ) : SharedBuffer ℚ :=
  { data := declickMixChannel d0 inc entering dFrames frames inBuf.data outBuf.data
    is_constant := false }

/-- Silenced channel buffer with the constant flag force-cleared. -/
def declickSilenceBuffer (d0 inc : ℚ) (entering : Bool)
    (dFrames frames : ℕ) (outBuf : SharedBuffer ℚ) : SharedBuffer ℚ :=
  { data := declickSilenceChannel d0 inc entering dFrames frames outBuf.data
    is_constant := false }

/-- The main output port during `bypass_declick`: channels paired with a
main input channel are mixed; output channels past the input's channel
count (`.skip(main_in_port.channels())`) ramp toward silence. -/
def declickMainPort (d0 inc : ℚ) (entering : Bool) (dFrames frames : ℕ)
    (inPort outPort : List (SharedBuffer ℚ)) : List (SharedBuffer ℚ) :=
  List.zipWith (declickMixBuffer d0 inc entering dFrames frames) inPort outPort
    ++ (outPort.drop inPort.length).map
        (declickSilenceBuffer d0 inc entering dFrames frames)

/-- `PluginHostProcessor::bypass_declick` (lines 269-370): ramp
`min(frames_left, frames)` samples this cycle; the main port (when
designated) mixes live input, every other port ramps toward silence; then
step `frames_left` down and the stored weight by `inc * dFrames`. -/
def bypassDeclick (p : PluginHostProcessor) (proc_info : ProcInfo)
    (buffers : ProcBuffers) : PluginHostProcessor × ProcBuffers :=
  let dFrames := min p.bypass_declick_frames_left proc_info.frames
  let d0 := p.bypass_declick
  let inc := p.bypass_declick_inc
  let entering := p.bypassed
  let (skip_ports, audio_out) :=
    if buffers.main_audio_through_when_bypassed then
      let main_in := buffers.audio_in.headD []
      let main_out := buffers.audio_out.headD []
      (1, declickMainPort d0 inc entering dFrames proc_info.frames main_in
            main_out :: buffers.audio_out.drop 1)
    else
      (0, buffers.audio_out)
  let audio_out :=
    audio_out.take skip_ports ++
      (audio_out.drop skip_ports).map fun port =>
        port.map (declickSilenceBuffer d0 inc entering dFrames proc_info.frames)
  ( { p with
      bypass_declick_frames_left := p.bypass_declick_frames_left - dFrames
      bypass_declick :=
        if entering then d0 - inc * dFrames else d0 + inc * dFrames }
  , { buffers with audio_out := audio_out } )

/-- `PluginHostProcessor::bypass` (lines 372-394): clear all outputs; when
a main pass-through port is designated and the main input does not carry a
silent hint, the source then runs, per zipped channel pair:
`let in_channel_data = out_channel.borrow();`
`let mut out_channel_data = out_channel.borrow_mut();`
— both borrows are taken on `out_channel`, so the mutable borrow conflicts
with the live shared borrow of the same `AtomicRefCell` and panics;
modelled as `none`.  A panicking `has_silent_hint` also yields `none`.
The loop body never runs when either port has no channels. -/
def bypass (proc_info : ProcInfo) (buffers : ProcBuffers) :
    Option ProcBuffers :=
  let bufs := buffers.clear_all_outputs proc_info.frames
  if bufs.main_audio_through_when_bypassed then
    let main_in := bufs.audio_in.headD []
    let main_out := bufs.audio_out.headD []
    match portHasSilentHint main_in with
    | none => none
    | some true => some bufs
    | some false =>
      if main_in.length = 0 ∨ main_out.length = 0 then some bufs else none
  else
    some bufs

/-- `PluginHostProcessor::process` (lines 77-267).  Externals are passed
in: the snapshot of the cross-thread shared state, whether a parameter /
note input event arrived while assembling `in_events` (lines 117-132, the
event queues are external), whether `plugin.start_processing()` succeeds,
and the plugin's per-cycle transform `runPlugin` (external capability,
spec §6), which returns the buffers it wrote and its reported status.
`none` models a panic (reachable only through `bypass`). -/
def process (p : PluginHostProcessor) (shared : SharedState)
    (proc_info : ProcInfo) (buffers : ProcBuffers)
    (has_param_in_event has_note_in_event : Bool) (start_ok : Bool)
    (runPlugin : ProcBuffers → ProcBuffers × ProcessStatus) :
    Option ProcessResult :=
  -- Do we want to deactivate the plugin?
  if shared.active_state = PluginActiveState.WaitingToDrop then
    some
      { proc := p
        buffers := buffers.clear_all_outputs proc_info.frames
        dropped := true
        calls :=
          if p.processing_state.isStarted then [.stop_processing] else []
        set_active := none }
  else if proc_info.schedule_version < p.schedule_version then
    -- Don't process until the expected schedule arrives.
    some
      { proc := p
        buffers := buffers.clear_all_outputs proc_info.frames
        dropped := false
        calls := []
        set_active := none }
  else
    let p :=
      if shared.process_requested ∧ ¬p.processing_state.isStarted then
        { p with processing_state := .WaitingForStart }
      else p
    -- We can't process a plugin which failed to start processing.
    if p.processing_state = .Errored then
      some
        { proc := p
          buffers := buffers.clear_all_outputs proc_info.frames
          dropped := false
          calls := []
          set_active := none }
    -- Check if inputs are quiet or not.
    else if p.processing_state = .Started .ContinueIfNotQuiet ∧
        has_note_in_event = false ∧
        buffers.audio_inputs_silent proc_info.frames then
      some
        { proc := { p with processing_state := .Stopped }
          buffers := buffers.clear_all_outputs proc_info.frames
          dropped := false
          calls :=
            .stop_processing ::
              (if has_param_in_event then [.param_flush] else [])
          set_active := none }
    -- Check if the plugin should be waking up.
    else if p.processing_state = .Stopped ∧ has_note_in_event = false then
      some
        { proc := p
          buffers := buffers.clear_all_outputs proc_info.frames
          dropped := false
          calls := if has_param_in_event then [.param_flush] else []
          set_active := none }
    else
      let needWake :=
        p.processing_state = .Stopped ∨ p.processing_state = .WaitingForStart
      if needWake ∧ start_ok = false then
        some
          { proc := { p with processing_state := .Errored }
            buffers := buffers.clear_all_outputs proc_info.frames
            dropped := false
            calls :=
              .start_processing ::
                (if has_param_in_event then [.param_flush] else [])
            set_active := none }
      else
        let startCalls : List PluginCall :=
          if needWake then [.start_processing] else []
        let setActive : Option PluginActiveState :=
          if needWake then some .Active else none
        -- Actual processing.
        let (bufs1, new_status) := runPlugin buffers
        -- Update processing state.
        let (p2, bufs2, statusCalls) :
            PluginHostProcessor × ProcBuffers × List PluginCall :=
          match new_status with
          | .Sleep =>
            ({ p with processing_state := .Stopped }, bufs1,
              [.stop_processing])
          | .Error =>
            ({ p with processing_state := .Errored },
              bufs1.clear_all_outputs proc_info.frames, [])
          | good_status =>
            ({ p with processing_state := .Started good_status }, bufs1, [])
        -- Process bypassing.
        let p3 := p2.bypassToggleUpdate shared.bypassed
        let calls := startCalls ++ .process :: statusCalls
        if p3.bypass_declick_frames_left ≠ 0 then
          let (p4, bufs3) := p3.bypassDeclick proc_info bufs2
          some
            { proc := p4, buffers := bufs3, dropped := false, calls := calls
              set_active := setActive }
        else if p3.bypassed then
          match bypass proc_info bufs2 with
          | none => none
          | some bufs3 =>
            some
              { proc := p3, buffers := bufs3, dropped := false
                calls := calls, set_active := setActive }
        else
          some
            { proc := p3, buffers := bufs2, dropped := false, calls := calls
              set_active := setActive }

end PluginHostProcessor

/-! ## Helper lemmas -/

/-- After `clear N`, the first `N` samples that exist are the default
value. -/
lemma clear_take_eq_replicate {T : Type} [Inhabited T] (b : SharedBuffer T)
    (N : ℕ) :
    (b.clear N).data.take N =
      List.replicate (min N b.data.length) (default : T) := by
  simp only [SharedBuffer.clear]
  rw [List.take_append_eq_append_take, List.take_replicate,
    List.length_replicate]
  rcases le_total N b.data.length with h | h
  · simp [min_eq_left h]
  · simp [min_eq_right h, List.drop_eq_nil_of_le h]

/-- `clear` over the cycle's frames leaves the first `frames` samples
all-zero (rational sample type). -/
lemma clear_take_all_zero (b : SharedBuffer ℚ) (frames : ℕ) :
    ((b.clear frames).data.take frames).all (fun x => decide (x = 0)) =
      true := by
  rw [clear_take_eq_replicate, List.all_eq_true]
  intro x hx
  rw [List.eq_of_mem_replicate hx]
  decide

/-- `clear_all_outputs` makes every output port all-zero over the cycle's
frames. -/
lemma outputsZero_clear_all_outputs (b : ProcBuffers) (frames : ℕ) :
    (b.clear_all_outputs frames).outputsZero frames = true := by
  unfold ProcBuffers.clear_all_outputs ProcBuffers.outputsZero portClearAll
  rw [List.all_eq_true]
  intro port hport
  rw [List.mem_map] at hport
  obtain ⟨p0, _, rfl⟩ := hport
  rw [List.all_map, List.all_eq_true]
  intro ch _
  simp only [Function.comp]
  exact clear_take_all_zero ch frames

/-- The `extend_from_slice` fold appends the concatenation of the input
sequences to its accumulator. -/
lemma foldl_extend_eq_append {E : Type} (bufs : List (SharedBuffer E))
    (acc : List E) :
    bufs.foldl (fun out_buf in_buf => out_buf ++ in_buf.data) acc =
      acc ++ (bufs.map SharedBuffer.data).flatten := by
  induction bufs generalizing acc with
  | nil => simp
  | cons b rest ih => simp [ih, List.append_assoc]

/-- `audioSumStep` on a constant-silent input: skipped. -/
lemma audioSumStep_skip (acc : List ℚ × Bool) (ch : SharedBuffer ℚ)
    (hc : ch.is_constant = true) (h0 : |ch.data.headD 0| ≤ f32Epsilon) :
    audioSumStep acc ch = acc := by
  unfold audioSumStep
  rw [if_pos hc, if_pos h0]

/-- `audioSumStep` on a constant, non-silent input: scalar addition, flag
untouched. -/
lemma audioSumStep_scalar (acc : List ℚ × Bool) (ch : SharedBuffer ℚ)
    (hc : ch.is_constant = true) (h0 : ¬|ch.data.headD 0| ≤ f32Epsilon) :
    audioSumStep acc ch = (acc.1.map (· + ch.data.headD 0), acc.2) := by
  unfold audioSumStep
  rw [if_pos hc, if_neg h0]

/-- `audioSumStep` on a non-constant input: elementwise addition, flag
cleared. -/
lemma audioSumStep_elem (acc : List ℚ × Bool) (ch : SharedBuffer ℚ)
    (hc : ch.is_constant = false) :
    audioSumStep acc ch =
      (List.zipWith (· + ·) acc.1 (ch.data.take acc.1.length), false) := by
  unfold audioSumStep
  rw [if_neg (by simp [hc])]

/-- The `is_constant` local of `AudioSumTask::process` after the fold:
it survives exactly when every remaining input carries the constant
hint. -/
lemma audioSum_foldl_is_constant (rest : List (SharedBuffer ℚ))
    (acc : List ℚ × Bool) :
    (rest.foldl audioSumStep acc).2 =
      (acc.2 && rest.all SharedBuffer.is_constant) := by
  induction rest generalizing acc with
  | nil => simp
  | cons ch rest ih =>
    rw [List.foldl_cons, ih, List.all_cons]
    rcases hc : ch.is_constant with _ | _
    · rw [audioSumStep_elem acc ch hc]
      simp
    · by_cases h0 : |ch.data.headD 0| ≤ f32Epsilon
      · rw [audioSumStep_skip acc ch hc h0]
        simp
      · rw [audioSumStep_scalar acc ch hc h0]
        simp

/-- One `audioSumStep` keeps the output-prefix length when the input holds
at least that many samples. -/
lemma audioSumStep_length (acc : List ℚ × Bool) (ch : SharedBuffer ℚ)
    (hlen : acc.1.length ≤ ch.data.length) :
    (audioSumStep acc ch).1.length = acc.1.length := by
  rcases hc : ch.is_constant with _ | _
  · rw [audioSumStep_elem acc ch hc]
    simp only [List.length_zipWith, List.length_take]
    omega
  · by_cases h0 : |ch.data.headD 0| ≤ f32Epsilon
    · rw [audioSumStep_skip acc ch hc h0]
    · rw [audioSumStep_scalar acc ch hc h0]
      simp

/-- The output prefix of `AudioSumTask::process` keeps its length through
the fold, provided every input holds at least that many samples. -/
lemma audioSum_foldl_length (rest : List (SharedBuffer ℚ))
    (acc : List ℚ × Bool)
    (hlen : ∀ ch ∈ rest, acc.1.length ≤ ch.data.length) :
    (rest.foldl audioSumStep acc).1.length = acc.1.length := by
  induction rest generalizing acc with
  | nil => rfl
  | cons ch rest ih =>
    rw [List.foldl_cons]
    have hstep : (audioSumStep acc ch).1.length = acc.1.length :=
      audioSumStep_length acc ch (hlen ch (List.mem_cons_self ch rest))
    rw [ih _ ?_, hstep]
    intro c hcmem
    rw [hstep]
    exact hlen c (List.mem_cons_of_mem ch hcmem)

/-- If every remaining input is skipped as constant-silent, the fold is the
identity. -/
lemma audioSum_foldl_skip (rest : List (SharedBuffer ℚ))
    (acc : List ℚ × Bool)
    (h : ∀ ch ∈ rest, ch.is_constant = true ∧ |ch.data.headD 0| ≤ f32Epsilon) :
    rest.foldl audioSumStep acc = acc := by
  induction rest with
  | nil => rfl
  | cons ch rest ih =>
    have hch := h ch (List.mem_cons_self ch rest)
    rw [List.foldl_cons, audioSumStep_skip acc ch hch.1 hch.2]
    exact ih fun c hc => h c (List.mem_cons_of_mem ch hc)

/-! ## Claims -/

/-- Modelled from the spec (§4.2 wording), the comparison definition for
the refinement claim C2: "copy the first input directly into the output;
for each subsequent input, if its constant hint is set and its first
sample's magnitude is at or below a tiny epsilon, skip it entirely; if its
constant hint is set but non-silent, add its scalar value to every output
sample; otherwise add elementwise." -/
def audioSumPolicySpec (frames : ℕ) (in0 : SharedBuffer ℚ)
    (rest : List (SharedBuffer ℚ)) : List ℚ :=
  rest.foldl
    (fun out ch =>
      if ch.is_constant = true ∧ |ch.data.headD 0| ≤ f32Epsilon then out
      else if ch.is_constant = true then out.map (· + ch.data.headD 0)
      else List.zipWith (· + ·) out (ch.data.take frames))
    (in0.data.take frames)

/-- The source fold computes the spec-worded policy, sample for sample,
once the working prefix has the cycle's length and every input holds at
least that many samples. -/
lemma audioSum_foldl_eq_policySpec (rest : List (SharedBuffer ℚ))
    (frames : ℕ) (acc : List ℚ × Bool) (hacc : acc.1.length = frames)
    (hlen : ∀ ch ∈ rest, frames ≤ ch.data.length) :
    (rest.foldl audioSumStep acc).1 =
      rest.foldl
        (fun out ch =>
          if ch.is_constant = true ∧ |ch.data.headD 0| ≤ f32Epsilon then out
          else if ch.is_constant = true then out.map (· + ch.data.headD 0)
          else List.zipWith (· + ·) out (ch.data.take frames))
        acc.1 := by
  induction rest generalizing acc with
  | nil => rfl
  | cons ch rest ih =>
    rw [List.foldl_cons, List.foldl_cons]
    have hchlen : frames ≤ ch.data.length :=
      hlen ch (List.mem_cons_self ch rest)
    have hstep :
        (audioSumStep acc ch).1 =
          if ch.is_constant = true ∧ |ch.data.headD 0| ≤ f32Epsilon then
            acc.1
          else if ch.is_constant = true then acc.1.map (· + ch.data.headD 0)
          else List.zipWith (· + ·) acc.1 (ch.data.take frames) := by
      rcases hc : ch.is_constant with _ | _
      · rw [audioSumStep_elem acc ch hc, hacc]
        simp
      · by_cases h0 : |ch.data.headD 0| ≤ f32Epsilon
        · rw [audioSumStep_skip acc ch hc h0, if_pos ⟨rfl, h0⟩]
        · rw [audioSumStep_scalar acc ch hc h0,
            if_neg (fun hand => h0 hand.2), if_pos rfl]
    have hsteplen : (audioSumStep acc ch).1.length = frames := by
      rw [audioSumStep_length acc ch (hacc ▸ hchlen), hacc]
    rw [ih (audioSumStep acc ch) hsteplen
      (fun c hc => hlen c (List.mem_cons_of_mem ch hc)), hstep]

/-- Concrete audio-sum run refuting C1's first sentence: first input
constant 5.0 (hint set), second input constant 3.0 (hint set,
non-silent). -/
def c1Task : AudioSumTask :=
  { audio_in := [⟨[5, 5], true⟩, ⟨[3, 3], true⟩]
    audio_out := ⟨[0, 0], false⟩ }

/-- Counterexample to C1 as stated: over two frames, the second input is
constant but not silent (|3.0| exceeds epsilon), so a real per-sample
scalar addition runs (the output becomes [8, 8], not the copied [5, 5]) —
the input was not "skipped as constant-silent" — and yet the output's
constant flag ends up true. -/
theorem C1_counterexample :
    (c1Task.process 2).audio_out.is_constant = true ∧
      (c1Task.process 2).audio_out.data = [8, 8] ∧
      (SharedBuffer.is_constant ⟨[(3 : ℚ), 3], true⟩ = true ∧
        ¬|(3 : ℚ)| ≤ f32Epsilon) := by
  refine ⟨?_, ?_, rfl, ?_⟩ <;>
    norm_num [c1Task, AudioSumTask.process, audioSumStep,
      SharedBuffer.is_constant, f32Epsilon]

/-- C1 (amended): the output's constant flag is true iff the first input's
constant flag is true and every subsequent input carries the constant hint
(whether skipped as constant-silent or added as a scalar); only an
elementwise addition of a non-constant-hinted input clears it.  And when
every input is constant-silent (hint set, first `frames` samples zero),
the output is all-zero over the cycle's frames and its constant flag is
true. -/
theorem C1_amended_constant_flag (t : AudioSumTask) (frames : ℕ)
    (in0 : SharedBuffer ℚ) (rest : List (SharedBuffer ℚ))
    (hin : t.audio_in = in0 :: rest) :
    ((t.process frames).audio_out.is_constant =
      (in0.is_constant && rest.all SharedBuffer.is_constant)) ∧
    ((∀ ch ∈ t.audio_in, ch.is_constant = true) →
      (∀ ch ∈ t.audio_in, ∀ x ∈ ch.data.take frames, x = 0) →
      (∀ ch ∈ t.audio_in, frames ≤ ch.data.length) →
      (t.process frames).audio_out.is_constant = true ∧
        ∀ x ∈ (t.process frames).audio_out.data.take frames, x = 0) := by
  have hproc :
      t.process frames =
        { t with
          audio_out :=
            { data :=
                (rest.foldl audioSumStep
                    (in0.data.take frames, in0.is_constant)).1 ++
                  t.audio_out.data.drop frames
              is_constant :=
                (rest.foldl audioSumStep
                    (in0.data.take frames, in0.is_constant)).2 } } := by
    unfold AudioSumTask.process
    rw [hin]
  have hflag :
      (t.process frames).audio_out.is_constant =
        (in0.is_constant && rest.all SharedBuffer.is_constant) := by
    rw [hproc]
    exact audioSum_foldl_is_constant rest _
  refine ⟨hflag, fun hconst hzero hlen => ⟨?_, ?_⟩⟩
  · rw [hflag, hconst in0 (hin ▸ List.mem_cons_self in0 rest),
      List.all_eq_true.mpr fun ch hch =>
        hconst ch (hin ▸ List.mem_cons_of_mem in0 hch)]
    rfl
  · rcases Nat.eq_zero_or_pos frames with hf | hf
    · intro x hx
      rw [hf] at hx
      simp at hx
    · have hskip : ∀ ch ∈ rest,
          ch.is_constant = true ∧ |ch.data.headD 0| ≤ f32Epsilon := by
        intro ch hch
        have hmem : ch ∈ t.audio_in := hin ▸ List.mem_cons_of_mem in0 hch
        refine ⟨hconst ch hmem, ?_⟩
        rcases hd : ch.data with _ | ⟨y, ys⟩
        · rw [List.headD_nil, abs_zero]
          norm_num [f32Epsilon]
        · have hy : y ∈ List.take frames ch.data := by
            obtain ⟨k, hk⟩ := Nat.exists_eq_succ_of_ne_zero hf.ne'
            rw [hd, hk, List.take_succ_cons]
            exact List.mem_cons_self y _
          have hy0 := hzero ch hmem y hy
          rw [List.headD_cons, hy0, abs_zero]
          norm_num [f32Epsilon]
      have hfold :
          rest.foldl audioSumStep (in0.data.take frames, in0.is_constant) =
            (in0.data.take frames, in0.is_constant) :=
        audioSum_foldl_skip rest _ hskip
      intro x hx
      rw [hproc] at hx
      simp only [hfold] at hx
      have hlen0 : (in0.data.take frames).length = frames := by
        have := hlen in0 (hin ▸ List.mem_cons_self in0 rest)
        simp [List.length_take]
        omega
      rw [List.take_append_eq_append_take, hlen0, Nat.sub_self,
        List.take_zero, List.append_nil, List.take_of_length_le
          (le_of_eq hlen0)] at hx
      exact hzero in0 (hin ▸ List.mem_cons_self in0 rest) x hx

/-- Closed witness for C1's amended theorem: a concrete three-input run
(constant 5.0, constant-silent, non-constant) has its flag cleared by the
elementwise input, and an all-constant-silent run is all-zero with the
flag set. -/
theorem C1_amended_witness :
    ((AudioSumTask.process
        { audio_in := [⟨[(0 : ℚ), 0], true⟩, ⟨[0, 0], true⟩]
          audio_out := ⟨[7, 7], false⟩ } 2).audio_out.is_constant =
      ((SharedBuffer.is_constant ⟨[(0 : ℚ), 0], true⟩) &&
        List.all [(⟨[0, 0], true⟩ : SharedBuffer ℚ)]
          SharedBuffer.is_constant)) ∧
    (AudioSumTask.process
        { audio_in := [⟨[(0 : ℚ), 0], true⟩, ⟨[0, 0], true⟩]
          audio_out := ⟨[7, 7], false⟩ } 2).audio_out.is_constant = true ∧
    ∀ x ∈ (AudioSumTask.process
        { audio_in := [⟨[(0 : ℚ), 0], true⟩, ⟨[0, 0], true⟩]
          audio_out := ⟨[7, 7], false⟩ } 2).audio_out.data.take 2, x = 0 := by
  have h := C1_amended_constant_flag
    { audio_in := [⟨[(0 : ℚ), 0], true⟩, ⟨[0, 0], true⟩]
      audio_out := ⟨[7, 7], false⟩ } 2 ⟨[(0 : ℚ), 0], true⟩
    [⟨[0, 0], true⟩] rfl
  refine ⟨h.1, ?_, ?_⟩
  · exact (h.2 (by decide) (by simp) (by decide)).1
  · exact (h.2 (by decide) (by simp) (by decide)).2

/-- C2: `AudioSumTask::process` writes the first `frames` output samples
exactly as the spec's stated optimization policy computes them (given at
least one input and buffers holding the cycle's frame count); and on the
example inputs [2.0 constant, silent-constant, 3.0 non-constant-varying]
the output is input 1 plus input 3 sample-wise with the constant flag
false. -/
theorem C2_audio_sum_matches_policy (t : AudioSumTask) (frames : ℕ)
    (in0 : SharedBuffer ℚ) (rest : List (SharedBuffer ℚ))
    (hin : t.audio_in = in0 :: rest)
    (hlen : ∀ ch ∈ t.audio_in, frames ≤ ch.data.length) :
    (t.process frames).audio_out.data.take frames =
        audioSumPolicySpec frames in0 rest ∧
      ((AudioSumTask.process
          { audio_in :=
              [⟨[(2 : ℚ), 2, 2], true⟩, ⟨[0, 0, 0], true⟩,
                ⟨[3, 1, 4], false⟩]
            audio_out := ⟨[9, 9, 9], false⟩ } 3).audio_out.data =
          List.zipWith (· + ·) [(2 : ℚ), 2, 2] [(3 : ℚ), 1, 4] ∧
        (AudioSumTask.process
          { audio_in :=
              [⟨[(2 : ℚ), 2, 2], true⟩, ⟨[0, 0, 0], true⟩,
                ⟨[3, 1, 4], false⟩]
            audio_out := ⟨[9, 9, 9], false⟩ } 3).audio_out.is_constant =
          false) := by
  refine ⟨?_,
    by norm_num [AudioSumTask.process, audioSumStep, f32Epsilon],
    by norm_num [AudioSumTask.process, audioSumStep, f32Epsilon]⟩
  have hproc :
      (t.process frames).audio_out.data =
        (rest.foldl audioSumStep (in0.data.take frames, in0.is_constant)).1
          ++ t.audio_out.data.drop frames := by
    unfold AudioSumTask.process
    rw [hin]
  have hlen0 : (in0.data.take frames).length = frames := by
    have := hlen in0 (hin ▸ List.mem_cons_self in0 rest)
    simp [List.length_take]
    omega
  have hfoldlen :
      (rest.foldl audioSumStep
        (in0.data.take frames, in0.is_constant)).1.length = frames := by
    rw [audioSum_foldl_length rest _ fun ch hch => ?_, hlen0]
    rw [hlen0]
    exact hlen ch (hin ▸ List.mem_cons_of_mem in0 hch)
  rw [hproc, List.take_append_eq_append_take, hfoldlen, Nat.sub_self,
    List.take_zero, List.append_nil,
    List.take_of_length_le (le_of_eq hfoldlen),
    audioSum_foldl_eq_policySpec rest frames _ hlen0
      fun ch hch => hlen ch (hin ▸ List.mem_cons_of_mem in0 hch)]
  rfl

/-- Closed witness for C2 at the spec's example inputs. -/
theorem C2_witness :
    (AudioSumTask.process
        { audio_in :=
            [⟨[(2 : ℚ), 2, 2], true⟩, ⟨[0, 0, 0], true⟩, ⟨[3, 1, 4], false⟩]
          audio_out := ⟨[9, 9, 9], false⟩ } 3).audio_out.data.take 3 =
      audioSumPolicySpec 3 ⟨[(2 : ℚ), 2, 2], true⟩
        [⟨[0, 0, 0], true⟩, ⟨[3, 1, 4], false⟩] :=
  (C2_audio_sum_matches_policy
    { audio_in :=
        [⟨[(2 : ℚ), 2, 2], true⟩, ⟨[0, 0, 0], true⟩, ⟨[3, 1, 4], false⟩]
      audio_out := ⟨[9, 9, 9], false⟩ } 3 ⟨[(2 : ℚ), 2, 2], true⟩
    [⟨[0, 0, 0], true⟩, ⟨[3, 1, 4], false⟩] rfl (by decide)).1

/-- C9: For all N ≥ 0: after calling `SharedBuffer::clear(N)`,
`is_constant()` returns true and the first N samples of the buffer equal
the element type's zero (default) value. -/
theorem C9_clear_sets_constant_and_zeroes {T : Type} [Inhabited T]
    (b : SharedBuffer T) (N : ℕ) :
    (b.clear N).is_constant = true ∧
      ∀ x ∈ (b.clear N).data.take N, x = (default : T) := by
  refine ⟨rfl, ?_⟩
  intro x hx
  rw [clear_take_eq_replicate] at hx
  exact List.eq_of_mem_replicate hx

/-- Closed witness for C9 at a concrete buffer: clearing two of three
samples sets the flag and zeroes the cleared prefix. -/
theorem C9_witness :
    (SharedBuffer.clear (⟨[5, 6, 7], false⟩ : SharedBuffer ℚ) 2).is_constant
        = true ∧
      ∀ x ∈ (SharedBuffer.clear (⟨[5, 6, 7], false⟩ : SharedBuffer ℚ)
          2).data.take 2, x = (default : ℚ) :=
  C9_clear_sets_constant_and_zeroes (⟨[5, 6, 7], false⟩ : SharedBuffer ℚ) 2

/-- C10: `SharedBuffer::has_silent_hint` reads element 0 whenever the
constant flag is true, with no bounds guard: on a buffer with a non-empty
underlying vector it returns `is_constant() && (element 0 = default)`; on a
buffer with an empty vector and the constant flag set it panics
(out-of-bounds index, modelled as `none`). -/
theorem C10_has_silent_hint_unguarded {T : Type} [Inhabited T]
    [DecidableEq T] (b : SharedBuffer T) :
    (b.data ≠ [] →
      b.has_silent_hint =
        some (b.is_constant && decide (b.data.headD default = default))) ∧
    (b.data = [] → b.is_constant = true → b.has_silent_hint = none) := by
  constructor
  · intro hne
    unfold SharedBuffer.has_silent_hint
    rcases hd : b.data with _ | ⟨x, rest⟩
    · exact absurd hd hne
    · rcases hc : b.is_constant with _ | _ <;> simp [hc, hd]
  · intro hd hc
    unfold SharedBuffer.has_silent_hint
    simp [hc, hd]

/-- Witness for C10 at concrete buffers: a one-sample zero buffer with the
flag set reports a silent hint; an empty buffer with the flag set
panics. -/
theorem C10_witness :
    SharedBuffer.has_silent_hint (⟨[(0 : ℚ)], true⟩ : SharedBuffer ℚ) =
        some (true && decide ((0 : ℚ) = (default : ℚ))) ∧
      SharedBuffer.has_silent_hint (⟨[], true⟩ : SharedBuffer ℚ) = none := by
  constructor
  · exact (C10_has_silent_hint_unguarded
      (⟨[(0 : ℚ)], true⟩ : SharedBuffer ℚ)).1 (by decide)
  · exact (C10_has_silent_hint_unguarded
      (⟨[], true⟩ : SharedBuffer ℚ)).2 rfl rfl

/-- C8: `AutomationSumTask::process` and `NoteSumTask::process` both leave
the output equal to the concatenation of all input event sequences in
input order (internal order preserved, output cleared first); in
particular inputs `[A,B]` and `[C]` yield `[A,B,C]`. -/
theorem C8_event_sums_concatenate {E : Type} (a : AutomationSumTask E)
    (nt : NoteSumTask E) :
    a.process.output.data = (a.input.map SharedBuffer.data).flatten ∧
      nt.process.note_out.data =
        (nt.note_in.map SharedBuffer.data).flatten ∧
      (AutomationSumTask.process
          { input := [⟨[10, 11], false⟩, ⟨[12], false⟩]
            output := (⟨[99], false⟩ : SharedBuffer ℕ) }).output.data =
        [10, 11, 12] := by
  refine ⟨?_, ?_, by decide⟩
  · show a.input.foldl _ [] = _
    rw [foldl_extend_eq_append, List.nil_append]
  · show nt.note_in.foldl _ [] = _
    rw [foldl_extend_eq_append, List.nil_append]

/-- C3: if the processor's expected schedule version is strictly greater
than the cycle's schedule version and the active state is not
`WaitingToDrop`, `process` returns false, every output port is cleared to
all-zero, the plugin is not invoked (no calls), and the processor — its
processing state included — is unchanged. -/
theorem C3_stale_schedule_freezes (p : PluginHostProcessor)
    (shared : SharedState) (proc_info : ProcInfo) (buffers : ProcBuffers)
    (hpe hne ok : Bool)
    (runPlugin : ProcBuffers → ProcBuffers × ProcessStatus)
    (hdrop : shared.active_state ≠ PluginActiveState.WaitingToDrop)
    (hver : proc_info.schedule_version < p.schedule_version) :
    p.process shared proc_info buffers hpe hne ok runPlugin =
        some
          { proc := p
            buffers := buffers.clear_all_outputs proc_info.frames
            dropped := false
            calls := []
            set_active := none } ∧
      (buffers.clear_all_outputs proc_info.frames).outputsZero
          proc_info.frames = true := by
  constructor
  · unfold PluginHostProcessor.process
    rw [if_neg hdrop, if_pos hver]
  · exact outputsZero_clear_all_outputs buffers proc_info.frames

/-- Witness fixtures for the plugin host processor claims. -/
def wProcStale : PluginHostProcessor :=
  { processing_state := .Stopped
    schedule_version := 2
    bypassed := false
    bypass_declick := 0
    bypass_declick_inc := 1 / 4
    bypass_declick_frames := 4
    bypass_declick_frames_left := 0 }

/-- A tiny one-port buffer set used as a witness fixture. -/
def wBufs : ProcBuffers :=
  { audio_in := [[⟨[1, 2], false⟩]]
    audio_out := [[⟨[3, 4], false⟩]]
    main_audio_through_when_bypassed := false }

/-- Closed witness for C3: a processor expecting schedule version 2 on a
version-1 cycle freezes. -/
theorem C3_witness :
    wProcStale.process ⟨.Active, false, false⟩ ⟨2, 1⟩ wBufs false false true
          (fun b => (b, .Continue)) =
        some
          { proc := wProcStale
            buffers := wBufs.clear_all_outputs 2
            dropped := false
            calls := []
            set_active := none } ∧
      (wBufs.clear_all_outputs 2).outputsZero 2 = true :=
  C3_stale_schedule_freezes wProcStale ⟨.Active, false, false⟩ ⟨2, 1⟩ wBufs
    false false true (fun b => (b, .Continue)) (by decide) (by decide)

/-- C4: if the cross-thread active state is `WaitingToDrop`, `process`
returns true, every output port is cleared to all-zero,
`stop_processing` is called iff the processing state was `Started`, and
nothing else happens (no other plugin call, processor unchanged, no
active-state write from within `process`). -/
theorem C4_waiting_to_drop (p : PluginHostProcessor) (shared : SharedState)
    (proc_info : ProcInfo) (buffers : ProcBuffers) (hpe hne ok : Bool)
    (runPlugin : ProcBuffers → ProcBuffers × ProcessStatus)
    (hdrop : shared.active_state = PluginActiveState.WaitingToDrop) :
    p.process shared proc_info buffers hpe hne ok runPlugin =
        some
          { proc := p
            buffers := buffers.clear_all_outputs proc_info.frames
            dropped := true
            calls :=
              if p.processing_state.isStarted then
                [PluginCall.stop_processing]
              else []
            set_active := none } ∧
      (buffers.clear_all_outputs proc_info.frames).outputsZero
          proc_info.frames = true := by
  constructor
  · unfold PluginHostProcessor.process
    rw [if_pos hdrop]
  · exact outputsZero_clear_all_outputs buffers proc_info.frames

/-- A started processor, for the drop witness. -/
def wProcStarted : PluginHostProcessor :=
  { processing_state := .Started .Continue
    schedule_version := 1
    bypassed := false
    bypass_declick := 0
    bypass_declick_inc := 1 / 4
    bypass_declick_frames := 4
    bypass_declick_frames_left := 0 }

/-- Closed witness for C4: a started processor seeing `WaitingToDrop`
stops the plugin, clears outputs and reports the drop. -/
theorem C4_witness :
    wProcStarted.process ⟨.WaitingToDrop, false, false⟩ ⟨2, 1⟩ wBufs false
          false true (fun b => (b, .Continue)) =
        some
          { proc := wProcStarted
            buffers := wBufs.clear_all_outputs 2
            dropped := true
            calls :=
              if wProcStarted.processing_state.isStarted then
                [PluginCall.stop_processing]
              else []
            set_active := none } ∧
      (wBufs.clear_all_outputs 2).outputsZero 2 = true :=
  C4_waiting_to_drop wProcStarted ⟨.WaitingToDrop, false, false⟩ ⟨2, 1⟩
    wBufs false false true (fun b => (b, .Continue)) rfl

/-- C7: with state `Started(ContinueIfNotQuiet)`, no note input event and
exactly-silent audio inputs (and the cycle otherwise normal: not dropping,
schedule version current), `process` stops the plugin, transitions to
`Stopped`, clears every output port, calls the dedicated `param_flush` iff
a parameter event arrived, and returns false. -/
theorem C7_quiet_input_fast_path (p : PluginHostProcessor)
    (shared : SharedState) (proc_info : ProcInfo) (buffers : ProcBuffers)
    (hpe hne ok : Bool)
    (runPlugin : ProcBuffers → ProcBuffers × ProcessStatus)
    (hdrop : shared.active_state ≠ PluginActiveState.WaitingToDrop)
    (hver : ¬proc_info.schedule_version < p.schedule_version)
    (hst : p.processing_state = .Started .ContinueIfNotQuiet)
    (hnote : hne = false)
    (hsil : buffers.audio_inputs_silent proc_info.frames = true) :
    p.process shared proc_info buffers hpe hne ok runPlugin =
        some
          { proc := { p with processing_state := .Stopped }
            buffers := buffers.clear_all_outputs proc_info.frames
            dropped := false
            calls :=
              .stop_processing ::
                (if hpe then [PluginCall.param_flush] else [])
            set_active := none } ∧
      (buffers.clear_all_outputs proc_info.frames).outputsZero
          proc_info.frames = true := by
  have hreq :
      ¬(shared.process_requested = true ∧
        ¬p.processing_state.isStarted = true) := by
    rintro ⟨-, hns⟩
    rw [hst] at hns
    exact hns rfl
  constructor
  · unfold PluginHostProcessor.process
    rw [if_neg hdrop, if_neg hver, if_neg hreq,
      if_neg (show ¬p.processing_state = .Errored by rw [hst]; decide),
      if_pos ⟨hst, hnote, hsil⟩]
  · exact outputsZero_clear_all_outputs buffers proc_info.frames

/-- Silent-input buffers for the quiet-path witness. -/
def wBufsSilent : ProcBuffers :=
  { audio_in := [[⟨[0, 0], true⟩]]
    audio_out := [[⟨[3, 4], false⟩]]
    main_audio_through_when_bypassed := false }

/-- Closed witness for C7 with a parameter event pending: the plugin is
stopped, outputs cleared, `param_flush` called, false returned. -/
theorem C7_witness :
    PluginHostProcessor.process
          { processing_state := .Started .ContinueIfNotQuiet
            schedule_version := 1
            bypassed := false
            bypass_declick := 0
            bypass_declick_inc := 1 / 4
            bypass_declick_frames := 4
            bypass_declick_frames_left := 0 }
          ⟨.Active, false, false⟩ ⟨2, 1⟩ wBufsSilent true false true
          (fun b => (b, .Continue)) =
        some
          { proc :=
              { processing_state := .Stopped
                schedule_version := 1
                bypassed := false
                bypass_declick := 0
                bypass_declick_inc := 1 / 4
                bypass_declick_frames := 4
                bypass_declick_frames_left := 0 }
            buffers := wBufsSilent.clear_all_outputs 2
            dropped := false
            calls := [.stop_processing, .param_flush]
            set_active := none } ∧
      (wBufsSilent.clear_all_outputs 2).outputsZero 2 = true := by
  have h := C7_quiet_input_fast_path
    { processing_state := .Started .ContinueIfNotQuiet
      schedule_version := 1
      bypassed := false
      bypass_declick := 0
      bypass_declick_inc := 1 / 4
      bypass_declick_frames := 4
      bypass_declick_frames_left := 0 }
    ⟨.Active, false, false⟩ ⟨2, 1⟩ wBufsSilent true false true
    (fun b => (b, .Continue)) (by decide) (by decide) rfl rfl (by simp
      [ProcBuffers.audio_inputs_silent, wBufsSilent, portIsSilent])
  exact h

/-- C6: when the observed bypass flag differs from the last-seen value,
a completed ramp restarts from the extreme matching the new direction
(weight 1.0 entering bypass, 0.0 leaving; remaining = N), while an
in-progress ramp is reversed: remaining becomes N − remaining and the mix
weight field is left exactly as it was (not reset to an extreme). -/
theorem C6_bypass_toggle_reversal (p : PluginHostProcessor) (sb : Bool)
    (htoggle : p.bypassed ≠ sb) :
    (p.bypass_declick_frames_left = 0 →
      p.bypassToggleUpdate sb =
        { p with
          bypassed := sb
          bypass_declick_frames_left := p.bypass_declick_frames
          bypass_declick := if sb then 1 else 0 }) ∧
    (p.bypass_declick_frames_left ≠ 0 →
      p.bypassToggleUpdate sb =
        { p with
          bypassed := sb
          bypass_declick_frames_left :=
            p.bypass_declick_frames - p.bypass_declick_frames_left }) := by
  constructor
  · intro h0
    unfold PluginHostProcessor.bypassToggleUpdate
    rw [if_pos htoggle, if_pos h0]
  · intro h0
    unfold PluginHostProcessor.bypassToggleUpdate
    rw [if_pos htoggle, if_neg h0]

/-- An idle (ramp-completed) non-bypassed processor. -/
def wProcRampDone : PluginHostProcessor :=
  { processing_state := .Started .Continue
    schedule_version := 1
    bypassed := false
    bypass_declick := 0
    bypass_declick_inc := 1 / 8
    bypass_declick_frames := 8
    bypass_declick_frames_left := 0 }

/-- A processor three frames from finishing an entering-bypass ramp. -/
def wProcRampMid : PluginHostProcessor :=
  { processing_state := .Started .Continue
    schedule_version := 1
    bypassed := true
    bypass_declick := 5 / 8
    bypass_declick_inc := 1 / 8
    bypass_declick_frames := 8
    bypass_declick_frames_left := 3 }

/-- Closed witness for C6: toggling into bypass from rest starts a fresh
ramp at weight 1.0; toggling during a ramp reverses the remaining count
(8 − 3 = 5) and keeps the weight at 5/8. -/
theorem C6_witness :
    wProcRampDone.bypassToggleUpdate true =
        { wProcRampDone with
          bypassed := true
          bypass_declick_frames_left := wProcRampDone.bypass_declick_frames
          bypass_declick := if true then 1 else 0 } ∧
      wProcRampMid.bypassToggleUpdate false =
        { wProcRampMid with
          bypassed := false
          bypass_declick_frames_left :=
            wProcRampMid.bypass_declick_frames -
              wProcRampMid.bypass_declick_frames_left } :=
  ⟨(C6_bypass_toggle_reversal wProcRampDone true (by decide)).1 rfl,
    (C6_bypass_toggle_reversal wProcRampMid false (by decide)).2
      (by decide)⟩

/-- The C5 failing input: bypass with a designated main pass-through port,
one non-silent main input channel and one main output channel. -/
def c5Bufs : ProcBuffers :=
  { audio_in := [[⟨[1, 1], false⟩]]
    audio_out := [[⟨[7, 7], false⟩]]
    main_audio_through_when_bypassed := true }

/-- C5 (code bug): on the full-bypass path with a designated main
pass-through port and a non-silent main input, `bypass` reaches the copy
loop whose body borrows `out_channel` both shared and mutably
(`in_channel_data` is bound to `out_channel.borrow()`, not
`in_channel.borrow()`), so the call panics instead of copying the input
through — `none` in the embedding.  The second conjunct shows the input
really takes this branch (no silent hint on the main input). -/
theorem C5_bypass_self_borrow_panics :
    PluginHostProcessor.bypass ⟨2, 0⟩ c5Bufs = none ∧
      portHasSilentHint [(⟨[(1 : ℚ), 1], false⟩ : SharedBuffer ℚ)] =
        some false := by
  constructor <;> rfl

end Dropseed
